import Mathlib

/-!
Verification of the session core in `src/server/sockets/handlers/gameHandler.ts`.

The handler code mutates three pieces of process-wide shared state:
`deps['players']` (the Player Registry), `deps['rooms']` (the Room Directory)
and the socket.io channel membership.  `deps['rooms']` is an append-only array
of *references* to `Room` objects, so the same `Room` object can appear as
several directory entries; a mutation through one entry is visible through all
of them.  We model object identity explicitly: `roomStore` holds one entry per
distinct `Room` object (distinct objects always carry distinct `roomID`s,
because fresh ids are drawn until they collide with no existing room), and the
directory `rooms` is the list of references, each reference being the target
object's `roomID`.  Likewise `Player` objects are shared between the Registry
and the rooms, so a room's occupant list stores player ids and the player state
itself lives in the registry.

The internals of the `Room` and `Player` classes are not part of the shown
source; those operations are modelled from the spec and marked as such.
-/

/-- Room lifecycle states (`RoomState` in the source). -/
inductive RoomState where
  | GAME_NOT_STARTED
  | GAME_IN_PROGRESS
  | GAME_FINISHED
deriving DecidableEq

/-- Player session state (the `Player` class).  `id` is the connection id.
Modelled from the spec: `new Player(id, username)` stores the id and username
and starts with status `GAME_NOT_STARTED`, `solveTime = 0` and `isDNF = false`
(spec section 3: `solveTime` is 0 until a solve completes). -/
structure Player where
  id : String
  username : String
  status : RoomState
  solveTime : Nat
  isDNF : Bool
deriving DecidableEq

/-- A `Room` object.  `players` is the occupant list; occupants are shared
`Player` references, modelled by their ids.  `rematchSet` is the transient
rematch-acceptance set of the spec. -/
structure Room where
  roomID : String
  players : List String
  roomStatus : RoomState
  maxPlayerCount : Nat
  rematchSet : List String
deriving DecidableEq

/-- Outbound protocol events. -/
inductive OutEvent where
  | joinInvalid
  | playerInitialized (id : String)
  | roomFound (roomID : String)
  | gameStarted (roomID : String)
  | inputRelay (senderID key : String)
  | solveCompleted (id : String)
deriving DecidableEq

/-- One outbound emission: `io.to(channel).emit(event)`.  socket.io treats a
socket's own id as a singleton channel, so unicast to connection `c` is an
emission on channel `c` and a room broadcast is an emission on the room's
`roomID` channel. -/
structure Emit where
  channel : String
  event : OutEvent
deriving DecidableEq

/-- The process-wide state touched by the handlers. -/
structure ServerState where
  /-- `deps['players']`: the Player Registry, in insertion order. -/
  players : List Player
  /-- One entry per distinct live `Room` object, keyed by its `roomID`. -/
  roomStore : List Room
  /-- `deps['rooms']`: the Room Directory, a list of references (roomIDs). -/
  rooms : List String
  /-- socket.io channel membership: (channel, connection) pairs. -/
  channels : List (String × String)
deriving DecidableEq

def initState : ServerState := ⟨[], [], [], []⟩

/-- The ids of all live `Room` objects. -/
def roomIDs (s : ServerState) : List String :=
  s.roomStore.map (fun r => r.roomID)

/-- Dereference a room reference. -/
def lookupRoom (s : ServerState) (rid : String) : Option Room :=
  s.roomStore.find? (fun r => decide (r.roomID = rid))

/-- One step of a directory scan: dereference an entry and test it. -/
def dirProbe (s : ServerState) (p : Room → Bool) (rid : String) : Option Room :=
  match lookupRoom s rid with
  | some r => if p r then some r else none
  | none => none

/-- `deps['rooms'].find(p)`: scan the directory entries in order and return the
first referenced room satisfying `p`. -/
def dirFind (s : ServerState) (p : Room → Bool) : Option Room :=
  s.rooms.findSome? (dirProbe s p)

/-- Mutate the room object with id `rid` (a mutation through any alias). -/
def updateRoom (s : ServerState) (rid : String) (f : Room → Room) : ServerState :=
  { s with roomStore := s.roomStore.map (fun r => if r.roomID = rid then f r else r) }

/-- The occupant list of the room object with id `rid` (empty if none). -/
def occupantsOf (s : ServerState) (rid : String) : List String :=
  ((lookupRoom s rid).map Room.players).getD []

/-- `deps['players'].find((p) => p.id === pid)`. -/
def findPlayer (s : ServerState) (pid : String) : Option Player :=
  s.players.find? (fun p => decide (p.id = pid))

/-- Mutate the shared `Player` object with id `pid`. -/
def updatePlayer (s : ServerState) (pid : String) (f : Player → Player) : ServerState :=
  { s with players := s.players.map (fun p => if p.id = pid then f p else p) }

/-- `socket.join(ch)`: socket.io rooms are sets, so joining is idempotent. -/
def joinChannel (s : ServerState) (ch conn : String) : ServerState :=
  if (ch, conn) ∈ s.channels then s
  else { s with channels := s.channels ++ [(ch, conn)] }

/-- `socket.leave(ch)`. -/
def leaveChannel (s : ServerState) (ch conn : String) : ServerState :=
  { s with channels := s.channels.filter (fun c => decide (c ≠ (ch, conn))) }

/-- Modelled from the spec: a brand-new `Room` starts with an empty occupant
list, status `GAME_NOT_STARTED`, an empty rematch set and capacity 2 (the
spec's scenarios race two players per room). -/
def newRoom (rid : String) : Room :=
  ⟨rid, [], RoomState.GAME_NOT_STARTED, 2, []⟩

/-- Modelled from the spec: `Room.addPlayer` appends the shared player
reference to the occupant list (capacity is not re-validated by the room). -/
def Room.addPlayer (r : Room) (pid : String) : Room :=
  { r with players := r.players ++ [pid] }

/-- Modelled from the spec: `Room.removePlayer` removes the occupant. -/
def Room.removePlayer (r : Room) (pid : String) : Room :=
  { r with players := r.players.filter (fun q => decide (q ≠ pid)) }

/-- The matchmaking predicate of lines 58 and 101:
`r.players.length <= r.getMaxPlayerCount() - 1 && r.roomStatus == GAME_NOT_STARTED`. -/
def Room.joinable (r : Room) : Bool :=
  decide (r.players.length ≤ r.maxPlayerCount - 1) &&
    decide (r.roomStatus = RoomState.GAME_NOT_STARTED)

/-- Modelled from the spec: `Room.startGame` transitions to
`GAME_IN_PROGRESS` and broadcasts the race scramble to the room's channel
exactly when occupancy has reached `maxPlayerCount` and the game has not
started; otherwise it is a no-op. -/
def Room.startGame (r : Room) : Room × List Emit :=
  if r.players.length = r.maxPlayerCount ∧ r.roomStatus = RoomState.GAME_NOT_STARTED then
    ({ r with roomStatus := RoomState.GAME_IN_PROGRESS },
     [⟨r.roomID, OutEvent.gameStarted r.roomID⟩])
  else (r, [])

/-- Modelled from the spec: `Room.processRematchRequest` adds the connection id
to the rematch-acceptance set and returns true iff every current occupant is in
that set. -/
def Room.processRematchRequest (r : Room) (pid : String) : Room × Bool :=
  let rset := if pid ∈ r.rematchSet then r.rematchSet else r.rematchSet ++ [pid]
  ({ r with rematchSet := rset }, r.players.all (fun q => decide (q ∈ rset)))

/-- Modelled from the spec: `Room.playerDNF` marks the shared occupant as not
finished; the occupant stays in the occupant list. -/
def playerDNF (s : ServerState) (pid : String) : ServerState :=
  updatePlayer s pid (fun p => { p with isDNF := true })

/-- Modelled from the spec: `Room.playerSolveComplete` records the finishing
result on the shared occupant (time, DNF = false) and broadcasts completion to
the room. -/
def playerSolveComplete (s : ServerState) (room : Room) (pid : String) (t : Nat) :
    ServerState × List Emit :=
  (updatePlayer s pid (fun p => { p with solveTime := t, isDNF := false }),
   [⟨room.roomID, OutEvent.solveCompleted pid⟩])

/-- Handler `initializePlayer` (lines 23–41).  A second initialization of the
same connection only logs and returns; nothing is emitted.  The
`if (!player)` failure branch of the source is unreachable because `new` never
produces a falsy value, so it is not modelled. -/
def initializePlayer (s : ServerState) (conn username : String) :
    ServerState × List Emit :=
  if s.players.any (fun p => decide (p.id = conn)) then (s, [])
  else
    let uname := if username = "" then "an unnamed cuber" else username
    ({ s with players := s.players ++ [⟨conn, uname, RoomState.GAME_NOT_STARTED, 0, false⟩] },
     [⟨conn, OutEvent.playerInitialized conn⟩])

/-- The find-joinable-else-create-then-push step shared verbatim by lines
58–71 and 101–114.  The source draws random ids with `genRanHex(5)` in a retry
loop until the id collides with no existing room; the id the loop settles on is
passed in as `fresh`, and reachability (below) carries the loop's postcondition
that `fresh` is no existing room's id.  Note the push into the directory is
unconditional: a *found* room is pushed again. -/
def ensureJoinableRoom (s : ServerState) (fresh : String) : Room × ServerState :=
  match dirFind s Room.joinable with
  | some r => (r, { s with rooms := s.rooms ++ [r.roomID] })
  | none =>
      let r := newRoom fresh
      (r, { s with roomStore := s.roomStore ++ [r], rooms := s.rooms ++ [r.roomID] })

/-- Handler `joinRandomRoom` (lines 48–75): discovery only, no membership. -/
def joinRandomRoom (s : ServerState) (conn fresh : String) : ServerState × List Emit :=
  match findPlayer s conn with
  | none => (s, [⟨conn, OutEvent.joinInvalid⟩])
  | some _ =>
      let rs := ensureJoinableRoom s fresh
      (rs.2, [⟨conn, OutEvent.roomFound rs.1.roomID⟩])

/-- Handler `joinRematchRoom` (lines 81–119). -/
def joinRematchRoom (s : ServerState) (conn fresh : String) : ServerState × List Emit :=
  let foundRoom := dirFind s (fun r => decide (conn ∈ r.players))
  match findPlayer s conn with
  | none => (s, [⟨conn, OutEvent.joinInvalid⟩])
  | some _ =>
    match foundRoom with
    | none => (s, [⟨conn, OutEvent.joinInvalid⟩])
    | some room =>
        let accepted := (room.processRematchRequest conn).2
        let s1 := updateRoom s room.roomID (fun r => (r.processRematchRequest conn).1)
        if accepted then
          let rs := ensureJoinableRoom s1 fresh
          (rs.2, [⟨room.roomID, OutEvent.roomFound rs.1.roomID⟩])
        else (s1, [])

/-- The per-player state reset of lines 148–150. -/
def resetPlayer (p : Player) : Player :=
  { p with status := RoomState.GAME_NOT_STARTED, solveTime := 0, isDNF := false }

/-- `room.startGame()` of line 157, as an operation on the shared state: read
the current value of the room object and apply `Room.startGame` to it. -/
def startGameAt (s : ServerState) (rid : String) : ServerState × List Emit :=
  match lookupRoom s rid with
  | some r => (updateRoom s rid (fun x => (x.startGame).1), (r.startGame).2)
  | none => (s, [])

/-- Handler `roomJoined` (lines 126–158): the membership transition. -/
def roomJoined (s : ServerState) (conn rid : String) : ServerState × List Emit :=
  let foundRoom := dirFind s (fun r => decide (r.roomID = rid))
  match findPlayer s conn with
  | none => (s, [⟨conn, OutEvent.joinInvalid⟩])
  | some _ =>
    match foundRoom with
    | none => (s, [⟨conn, OutEvent.joinInvalid⟩])
    | some room =>
        let s1 :=
          match dirFind s (fun r => decide (conn ∈ r.players)) with
          | some currentRoom =>
              let sa := updateRoom s currentRoom.roomID (fun r => r.removePlayer conn)
              let sb := leaveChannel sa currentRoom.roomID conn
              updatePlayer sb conn resetPlayer
          | none => s
        let s2 := joinChannel s1 room.roomID conn
        let s3 := updateRoom s2 room.roomID (fun r => r.addPlayer conn)
        startGameAt s3 room.roomID

/-- Handler `handleKeyboardInput` (lines 164–174): the room is looked up by the
*claimed* sender id, not the delivering socket. -/
def handleKeyboardInput (s : ServerState) (conn senderID key : String) :
    ServerState × List Emit :=
  match dirFind s (fun r => decide (senderID ∈ r.players)) with
  | none => (s, [⟨conn, OutEvent.joinInvalid⟩])
  | some room => (s, [⟨room.roomID, OutEvent.inputRelay senderID key⟩])

/-- Handler `handleSolveComplete` (lines 180–185): the room is looked up by the
delivering socket's own membership, and the solve is only recorded when the
claimed id equals the delivering connection's id.  `t` is the recorded time. -/
def handleSolveComplete (s : ServerState) (conn socketID : String) (t : Nat) :
    ServerState × List Emit :=
  match dirFind s (fun r => decide (conn ∈ r.players)) with
  | none => (s, [])
  | some room =>
      if conn = socketID then playerSolveComplete s room socketID t else (s, [])

/-- Handler `disconnectPlayer` (lines 191–201).  Note it never removes the
player from `deps['players']`. -/
def disconnectPlayer (s : ServerState) (conn : String) : ServerState × List Emit :=
  let foundRoom := dirFind s (fun r => decide (conn ∈ r.players))
  match findPlayer s conn with
  | none => (s, [⟨conn, OutEvent.joinInvalid⟩])
  | some player =>
    match foundRoom with
    | some _ => (playerDNF s player.id, [])
    | none => (s, [])

/-- The inbound events of the socket (lines 11–17).  `joinRandom` and
`joinRematch` carry the id the `genRanHex` retry loop settled on;
`completedSolve` carries the recorded time. -/
inductive Event where
  | init (username : String)
  | joinRandom (fresh : String)
  | joinRematch (fresh : String)
  | joined (roomID : String)
  | keyInput (senderID key : String)
  | completedSolve (claimedID : String) (t : Nat)
  | disconnect

/-- Dispatch of one inbound event delivered by connection `conn`. -/
def handle (s : ServerState) (conn : String) : Event → ServerState × List Emit
  | Event.init u => initializePlayer s conn u
  | Event.joinRandom f => joinRandomRoom s conn f
  | Event.joinRematch f => joinRematchRoom s conn f
  | Event.joined rid => roomJoined s conn rid
  | Event.keyInput sid k => handleKeyboardInput s conn sid k
  | Event.completedSolve cid t => handleSolveComplete s conn cid t
  | Event.disconnect => disconnectPlayer s conn

/-- The postcondition of the `while (collide) { redraw }` loop of lines 64–66
and 107–109: the id handed to the handler collides with no existing room. -/
def freshOK (s : ServerState) : Event → Bool
  | Event.joinRandom f => decide (f ∉ roomIDs s)
  | Event.joinRematch f => decide (f ∉ roomIDs s)
  | _ => true

/-- States reachable from process start by processing inbound events. -/
inductive Reach : ServerState → Prop where
  | init : Reach initState
  | step (s : ServerState) (conn : String) (e : Event) (hs : Reach s)
      (hf : freshOK s e = true) : Reach (handle s conn e).1

/-- Distinct room objects carry distinct ids. -/
def idsNodup (s : ServerState) : Prop := (roomIDs s).Nodup

/-- Every directory entry references a live room object. -/
def dirResolves (s : ServerState) : Prop :=
  ∀ rid ∈ s.rooms, rid ∈ roomIDs s

/-- Every live room object is referenced by the directory. -/
def storeListed (s : ServerState) : Prop :=
  ∀ rid ∈ roomIDs s, rid ∈ s.rooms

/-- At most one distinct room's occupant list contains the player `p`. -/
def atMostOneRoom (s : ServerState) (p : String) : Prop :=
  ∀ r1 ∈ s.roomStore, ∀ r2 ∈ s.roomStore,
    p ∈ r1.players → p ∈ r2.players → r1.roomID = r2.roomID

/-- The inductive invariant of the process state. -/
def StateInv (s : ServerState) : Prop :=
  idsNodup s ∧ dirResolves s ∧ storeListed s ∧ ∀ p, atMostOneRoom s p

/-! ### Basic frame lemmas -/

theorem rooms_updateRoom (s : ServerState) (rid : String) (f : Room → Room) :
    (updateRoom s rid f).rooms = s.rooms := rfl

theorem players_updateRoom (s : ServerState) (rid : String) (f : Room → Room) :
    (updateRoom s rid f).players = s.players := rfl

theorem channels_updateRoom (s : ServerState) (rid : String) (f : Room → Room) :
    (updateRoom s rid f).channels = s.channels := rfl

theorem roomStore_updatePlayer (s : ServerState) (pid : String) (f : Player → Player) :
    (updatePlayer s pid f).roomStore = s.roomStore := rfl

theorem rooms_updatePlayer (s : ServerState) (pid : String) (f : Player → Player) :
    (updatePlayer s pid f).rooms = s.rooms := rfl

theorem channels_updatePlayer (s : ServerState) (pid : String) (f : Player → Player) :
    (updatePlayer s pid f).channels = s.channels := rfl

theorem roomStore_joinChannel (s : ServerState) (ch conn : String) :
    (joinChannel s ch conn).roomStore = s.roomStore := by
  unfold joinChannel; split <;> rfl

theorem rooms_joinChannel (s : ServerState) (ch conn : String) :
    (joinChannel s ch conn).rooms = s.rooms := by
  unfold joinChannel; split <;> rfl

theorem players_joinChannel (s : ServerState) (ch conn : String) :
    (joinChannel s ch conn).players = s.players := by
  unfold joinChannel; split <;> rfl

theorem roomStore_leaveChannel (s : ServerState) (ch conn : String) :
    (leaveChannel s ch conn).roomStore = s.roomStore := rfl

theorem rooms_leaveChannel (s : ServerState) (ch conn : String) :
    (leaveChannel s ch conn).rooms = s.rooms := rfl

theorem players_leaveChannel (s : ServerState) (ch conn : String) :
    (leaveChannel s ch conn).players = s.players := rfl

theorem lookupRoom_congr (s s' : ServerState) (rid : String)
    (h : s'.roomStore = s.roomStore) : lookupRoom s' rid = lookupRoom s rid := by
  unfold lookupRoom; rw [h]

theorem findPlayer_congr (s s' : ServerState) (pid : String)
    (h : s'.players = s.players) : findPlayer s' pid = findPlayer s pid := by
  unfold findPlayer; rw [h]

theorem dirFind_congr (s s' : ServerState) (p : Room → Bool)
    (hst : s'.roomStore = s.roomStore) (hd : s'.rooms = s.rooms) :
    dirFind s' p = dirFind s p := by
  unfold dirFind dirProbe lookupRoom; rw [hst, hd]

/-! ### Keyed find/update lemmas for the room store and the registry -/

theorem find?_roomID_update_self (l : List Room) (rid : String) (f : Room → Room)
    (hf : ∀ x, (f x).roomID = x.roomID) :
    (l.map (fun x => if x.roomID = rid then f x else x)).find?
        (fun x => decide (x.roomID = rid)) =
      (l.find? (fun x => decide (x.roomID = rid))).map f := by
  induction l with
  | nil => simp
  | cons a t ih =>
      by_cases h : a.roomID = rid
      · simp [List.find?_cons, h, hf]
      · simp [List.find?_cons, h, hf, ih]

theorem find?_roomID_update_other (l : List Room) (rid rid' : String) (f : Room → Room)
    (hf : ∀ x, (f x).roomID = x.roomID) (hne : rid' ≠ rid) :
    (l.map (fun x => if x.roomID = rid then f x else x)).find?
        (fun x => decide (x.roomID = rid')) =
      l.find? (fun x => decide (x.roomID = rid')) := by
  induction l with
  | nil => simp
  | cons a t ih =>
      simp only [List.map_cons, List.find?_cons]
      by_cases h : a.roomID = rid
      · rw [if_pos h]
        have b1 : decide ((f a).roomID = rid') = false :=
          decide_eq_false (fun he => hne (by rw [hf, h] at he; exact he.symm))
        have b2 : decide (a.roomID = rid') = false :=
          decide_eq_false (fun he => hne (by rw [h] at he; exact he.symm))
        rw [b1, b2]
        exact ih
      · rw [if_neg h]
        by_cases h' : a.roomID = rid'
        · rw [decide_eq_true h']
        · rw [decide_eq_false h']
          exact ih

theorem find?_roomID_self (l : List Room) (hnd : (l.map (fun r => r.roomID)).Nodup)
    (r : Room) (hr : r ∈ l) :
    l.find? (fun x => decide (x.roomID = r.roomID)) = some r := by
  induction l with
  | nil => cases hr
  | cons a t ih =>
      rw [List.map_cons, List.nodup_cons] at hnd
      rcases List.mem_cons.mp hr with h | h
      · subst h; simp [List.find?_cons]
      · have hne : ¬ a.roomID = r.roomID := fun he => hnd.1 (he ▸ List.mem_map_of_mem _ h)
        rw [List.find?_cons, decide_eq_false hne]
        exact ih hnd.2 h

theorem find?_pid_update_self (l : List Player) (pid : String) (f : Player → Player)
    (hf : ∀ x, (f x).id = x.id) :
    (l.map (fun x => if x.id = pid then f x else x)).find?
        (fun x => decide (x.id = pid)) =
      (l.find? (fun x => decide (x.id = pid))).map f := by
  induction l with
  | nil => simp
  | cons a t ih =>
      by_cases h : a.id = pid
      · simp [List.find?_cons, h, hf]
      · simp [List.find?_cons, h, hf, ih]

theorem lookupRoom_some (s : ServerState) (rid : String) (r : Room)
    (h : lookupRoom s rid = some r) : r ∈ s.roomStore ∧ r.roomID = rid := by
  refine ⟨List.mem_of_find?_eq_some h, ?_⟩
  have := List.find?_some h
  simpa using this

theorem lookupRoom_self (s : ServerState) (hnd : idsNodup s) (r : Room)
    (hr : r ∈ s.roomStore) : lookupRoom s r.roomID = some r :=
  find?_roomID_self s.roomStore hnd r hr

theorem lookupRoom_updateRoom_self (s : ServerState) (rid : String) (f : Room → Room)
    (r : Room) (hf : ∀ x, (f x).roomID = x.roomID) (h : lookupRoom s rid = some r) :
    lookupRoom (updateRoom s rid f) rid = some (f r) := by
  unfold lookupRoom updateRoom at *
  rw [find?_roomID_update_self s.roomStore rid f hf, h]
  rfl

theorem lookupRoom_updateRoom_other (s : ServerState) (rid rid' : String) (f : Room → Room)
    (hf : ∀ x, (f x).roomID = x.roomID) (hne : rid' ≠ rid) :
    lookupRoom (updateRoom s rid f) rid' = lookupRoom s rid' := by
  unfold lookupRoom updateRoom
  exact find?_roomID_update_other s.roomStore rid rid' f hf hne

theorem findPlayer_updatePlayer_self (s : ServerState) (pid : String) (f : Player → Player)
    (pst : Player) (hf : ∀ x, (f x).id = x.id) (h : findPlayer s pid = some pst) :
    findPlayer (updatePlayer s pid f) pid = some (f pst) := by
  unfold findPlayer updatePlayer at *
  rw [find?_pid_update_self s.players pid f hf, h]
  rfl

/-! ### dirFind specifications -/

theorem dirFind_some_spec (s : ServerState) (p : Room → Bool) (r : Room)
    (h : dirFind s p = some r) : r ∈ s.roomStore ∧ p r = true := by
  obtain ⟨rid, hrid, heq⟩ := List.exists_of_findSome?_eq_some h
  unfold dirProbe at heq
  cases hl : lookupRoom s rid with
  | none => simp only [hl] at heq; exact Option.noConfusion heq
  | some r0 =>
      simp only [hl] at heq
      by_cases hp : p r0 = true
      · rw [if_pos hp] at heq
        injection heq with he
        subst he
        exact ⟨(lookupRoom_some s rid r0 hl).1, hp⟩
      · rw [if_neg hp] at heq
        cases heq

theorem dirFind_none_spec (s : ServerState) (p : Room → Bool)
    (h : dirFind s p = none) (hnd : idsNodup s) (hsl : storeListed s) :
    ∀ r ∈ s.roomStore, p r = false := by
  intro r hr
  have hrid : r.roomID ∈ s.rooms := hsl r.roomID (List.mem_map_of_mem _ hr)
  have h2 := List.findSome?_eq_none_iff.mp h r.roomID hrid
  unfold dirProbe at h2
  simp only [lookupRoom_self s hnd r hr] at h2
  cases hpr : p r with
  | false => rfl
  | true => rw [if_pos hpr] at h2; cases h2

/-! ### Invariant transfer lemmas -/

theorem roomIDs_updateRoom (s : ServerState) (rid : String) (f : Room → Room)
    (hf : ∀ r, (f r).roomID = r.roomID) :
    roomIDs (updateRoom s rid f) = roomIDs s := by
  unfold roomIDs updateRoom
  simp only [List.map_map]
  refine List.map_congr_left (fun r _ => ?_)
  by_cases h : r.roomID = rid
  · simp [Function.comp, h, hf]
  · simp [Function.comp, h]

theorem atMostOne_updateRoom (s : ServerState) (rid : String) (f : Room → Room)
    (p : String) (hid : ∀ x, (f x).roomID = x.roomID)
    (hocc : ∀ x q, q ∈ (f x).players → q ∈ x.players) (h : atMostOneRoom s p) :
    atMostOneRoom (updateRoom s rid f) p := by
  intro r1 h1 r2 h2 hp1 hp2
  have h1' : r1 ∈ s.roomStore.map (fun r => if r.roomID = rid then f r else r) := h1
  have h2' : r2 ∈ s.roomStore.map (fun r => if r.roomID = rid then f r else r) := h2
  obtain ⟨x1, hx1, he1⟩ := List.mem_map.mp h1'
  obtain ⟨x2, hx2, he2⟩ := List.mem_map.mp h2'
  have e1id : r1.roomID = x1.roomID := by
    rw [← he1]; by_cases h : x1.roomID = rid <;> simp [h, hid]
  have e1p : p ∈ x1.players := by
    rw [← he1] at hp1
    by_cases h : x1.roomID = rid
    · rw [if_pos h] at hp1; exact hocc x1 p hp1
    · rw [if_neg h] at hp1; exact hp1
  have e2id : r2.roomID = x2.roomID := by
    rw [← he2]; by_cases h : x2.roomID = rid <;> simp [h, hid]
  have e2p : p ∈ x2.players := by
    rw [← he2] at hp2
    by_cases h : x2.roomID = rid
    · rw [if_pos h] at hp2; exact hocc x2 p hp2
    · rw [if_neg h] at hp2; exact hp2
  rw [e1id, e2id]
  exact h x1 hx1 x2 hx2 e1p e2p

theorem stateInv_updateRoom (s : ServerState) (rid : String) (f : Room → Room)
    (hid : ∀ x, (f x).roomID = x.roomID)
    (hocc : ∀ x q, q ∈ (f x).players → q ∈ x.players)
    (h : StateInv s) : StateInv (updateRoom s rid f) := by
  obtain ⟨h1, h2, h3, h4⟩ := h
  have hids := roomIDs_updateRoom s rid f hid
  refine ⟨?_, ?_, ?_, fun p => atMostOne_updateRoom s rid f p hid hocc (h4 p)⟩
  · unfold idsNodup; rw [hids]; exact h1
  · intro x hx; rw [hids]; exact h2 x hx
  · intro x hx; rw [hids] at hx; exact h3 x hx

theorem stateInv_congr (s s' : ServerState) (hst : s'.roomStore = s.roomStore)
    (hd : s'.rooms = s.rooms) (h : StateInv s) : StateInv s' := by
  obtain ⟨h1, h2, h3, h4⟩ := h
  refine ⟨?_, ?_, ?_, ?_⟩
  · unfold idsNodup roomIDs; rw [hst]; exact h1
  · intro x hx
    unfold roomIDs; rw [hst]
    exact h2 x (hd ▸ hx)
  · intro x hx
    unfold roomIDs at hx; rw [hst] at hx
    exact hd ▸ h3 x hx
  · intro p r1 hr1 r2 hr2 hp1 hp2
    exact h4 p r1 (hst ▸ hr1) r2 (hst ▸ hr2) hp1 hp2

theorem stateInv_init : StateInv initState := by
  refine ⟨List.nodup_nil, ?_, ?_, ?_⟩
  · intro x hx; cases hx
  · intro x hx; cases hx
  · intro p r1 hr1; cases hr1

/-! ### Field-preservation facts for the room operations -/

theorem startGame_fst_roomID (r : Room) : ((r.startGame).1).roomID = r.roomID := by
  unfold Room.startGame; split <;> rfl

theorem startGame_fst_players (r : Room) : ((r.startGame).1).players = r.players := by
  unfold Room.startGame; split <;> rfl

theorem processRematch_fst_roomID (r : Room) (pid : String) :
    ((r.processRematchRequest pid).1).roomID = r.roomID := rfl

theorem processRematch_fst_players (r : Room) (pid : String) :
    ((r.processRematchRequest pid).1).players = r.players := rfl

/-! ### Invariant preservation, handler by handler -/

theorem stateInv_ensureJoinableRoom (s : ServerState) (f : String)
    (hf : f ∉ roomIDs s) (h : StateInv s) : StateInv (ensureJoinableRoom s f).2 := by
  obtain ⟨h1, h2, h3, h4⟩ := h
  unfold ensureJoinableRoom
  cases hd : dirFind s Room.joinable with
  | some r =>
      simp only [hd]
      have hr := dirFind_some_spec s Room.joinable r hd
      refine ⟨h1, ?_, ?_, h4⟩
      · intro x hx
        rcases List.mem_append.mp hx with hx | hx
        · exact h2 x hx
        · have hxr : x = r.roomID := by simpa using hx
          subst hxr
          exact List.mem_map_of_mem _ hr.1
      · intro x hx
        exact List.mem_append_left _ (h3 x hx)
  | none =>
      simp only [hd]
      have hidseq :
          roomIDs { s with roomStore := s.roomStore ++ [newRoom f],
                           rooms := s.rooms ++ [(newRoom f).roomID] } =
            roomIDs s ++ [f] := by
        simp [roomIDs, newRoom]
      refine ⟨?_, ?_, ?_, ?_⟩
      · unfold idsNodup
        rw [hidseq]
        refine List.Nodup.append h1 (List.nodup_singleton f) ?_
        intro a ha hb
        have : a = f := by simpa using hb
        subst this
        exact hf ha
      · intro x hx
        rw [hidseq]
        rcases List.mem_append.mp hx with hx | hx
        · exact List.mem_append_left _ (h2 x hx)
        · have hxf : x = f := by simpa [newRoom] using hx
          subst hxf
          simp
      · intro x hx
        rw [hidseq] at hx
        rcases List.mem_append.mp hx with hx | hx
        · exact List.mem_append_left _ (h3 x hx)
        · have hxf : x = f := by simpa using hx
          subst hxf
          simp [newRoom]
      · intro p r1 hr1 r2 hr2 hp1 hp2
        rcases List.mem_append.mp hr1 with hr1 | hr1
        · rcases List.mem_append.mp hr2 with hr2 | hr2
          · exact h4 p r1 hr1 r2 hr2 hp1 hp2
          · have : r2 = newRoom f := by simpa using hr2
            subst this
            simp [newRoom] at hp2
        · have : r1 = newRoom f := by simpa using hr1
          subst this
          simp [newRoom] at hp1

theorem stateInv_initializePlayer (s : ServerState) (c u : String)
    (h : StateInv s) : StateInv (initializePlayer s c u).1 := by
  unfold initializePlayer
  split
  · exact h
  · exact stateInv_congr s _ rfl rfl h

theorem stateInv_joinRandomRoom (s : ServerState) (c f : String)
    (h : StateInv s) (hf : f ∉ roomIDs s) : StateInv (joinRandomRoom s c f).1 := by
  unfold joinRandomRoom
  cases hp : findPlayer s c with
  | none => simp only [hp]; exact h
  | some q => simp only [hp]; exact stateInv_ensureJoinableRoom s f hf h

theorem stateInv_joinRematchRoom (s : ServerState) (c f : String)
    (h : StateInv s) (hf : f ∉ roomIDs s) : StateInv (joinRematchRoom s c f).1 := by
  unfold joinRematchRoom
  cases hp : findPlayer s c with
  | none => simp only [hp]; exact h
  | some q =>
      cases hr : dirFind s (fun r => decide (c ∈ r.players)) with
      | none => simp only [hp, hr]; exact h
      | some room =>
          simp only [hp, hr]
          have h1 : StateInv (updateRoom s room.roomID
              (fun r => (r.processRematchRequest c).1)) :=
            stateInv_updateRoom s _ _ (fun x => rfl)
              (fun x q hq => by rw [processRematch_fst_players] at hq; exact hq) h
          split
          · refine stateInv_ensureJoinableRoom _ f ?_ h1
            rw [roomIDs_updateRoom s room.roomID
              (fun r => (r.processRematchRequest c).1) (fun x => rfl)]
            exact hf
          · exact h1

theorem no_conn_after_evict (s : ServerState) (conn : String)
    (h4 : ∀ p, atMostOneRoom s p) (cur : Room)
    (hcur : dirFind s (fun r => decide (conn ∈ r.players)) = some cur) :
    ∀ r ∈ (updateRoom s cur.roomID (fun x => x.removePlayer conn)).roomStore,
      conn ∉ r.players := by
  intro r hr hmem
  have hr' : r ∈ s.roomStore.map
      (fun x => if x.roomID = cur.roomID then x.removePlayer conn else x) := hr
  obtain ⟨x, hx, hex⟩ := List.mem_map.mp hr'
  obtain ⟨hcs, hcp⟩ := dirFind_some_spec s _ cur hcur
  have hcp' : conn ∈ cur.players := of_decide_eq_true hcp
  by_cases hid : x.roomID = cur.roomID
  · rw [if_pos hid] at hex
    rw [← hex] at hmem
    simp only [Room.removePlayer] at hmem
    have := (List.mem_filter.mp hmem).2
    simp at this
  · rw [if_neg hid] at hex
    rw [← hex] at hmem
    exact hid (h4 conn x hx cur hcs hmem hcp')

theorem no_conn_no_room (s : ServerState) (conn : String)
    (hnd : idsNodup s) (hsl : storeListed s)
    (hnone : dirFind s (fun r => decide (conn ∈ r.players)) = none) :
    ∀ r ∈ s.roomStore, conn ∉ r.players := by
  intro r hr hmem
  have hfalse := dirFind_none_spec s _ hnone hnd hsl r hr
  rw [decide_eq_true hmem] at hfalse
  exact Bool.noConfusion hfalse

theorem only_target_after_add (s2 : ServerState) (conn tgt : String)
    (hno : ∀ r ∈ s2.roomStore, conn ∉ r.players) :
    ∀ r ∈ (updateRoom s2 tgt (fun x => x.addPlayer conn)).roomStore,
      conn ∈ r.players → r.roomID = tgt := by
  intro r hr hmem
  have hr' : r ∈ s2.roomStore.map
      (fun x => if x.roomID = tgt then x.addPlayer conn else x) := hr
  obtain ⟨x, hx, hex⟩ := List.mem_map.mp hr'
  by_cases hid : x.roomID = tgt
  · rw [if_pos hid] at hex
    rw [← hex]
    simpa [Room.addPlayer] using hid
  · rw [if_neg hid] at hex
    rw [← hex] at hmem
    exact absurd hmem (hno x hx)

theorem stateInv_after_add (s2 : ServerState) (conn tgt : String)
    (h : StateInv s2) (hno : ∀ r ∈ s2.roomStore, conn ∉ r.players) :
    StateInv (updateRoom s2 tgt (fun x => x.addPlayer conn)) := by
  obtain ⟨h1, h2, h3, h4⟩ := h
  have hids := roomIDs_updateRoom s2 tgt (fun x => x.addPlayer conn) (fun x => rfl)
  refine ⟨?_, ?_, ?_, ?_⟩
  · unfold idsNodup; rw [hids]; exact h1
  · intro x hx; rw [hids]; exact h2 x hx
  · intro x hx; rw [hids] at hx; exact h3 x hx
  · intro p r1 hr1 r2 hr2 hp1 hp2
    by_cases hpc : p = conn
    · subst hpc
      have ot := only_target_after_add s2 p tgt hno
      rw [ot r1 hr1 hp1, ot r2 hr2 hp2]
    · have hr1' : r1 ∈ s2.roomStore.map
          (fun x => if x.roomID = tgt then x.addPlayer conn else x) := hr1
      have hr2' : r2 ∈ s2.roomStore.map
          (fun x => if x.roomID = tgt then x.addPlayer conn else x) := hr2
      obtain ⟨x1, hx1, he1⟩ := List.mem_map.mp hr1'
      obtain ⟨x2, hx2, he2⟩ := List.mem_map.mp hr2'
      have e1id : r1.roomID = x1.roomID := by
        rw [← he1]; by_cases hh : x1.roomID = tgt <;> simp [hh, Room.addPlayer]
      have e2id : r2.roomID = x2.roomID := by
        rw [← he2]; by_cases hh : x2.roomID = tgt <;> simp [hh, Room.addPlayer]
      have e1p : p ∈ x1.players := by
        rw [← he1] at hp1
        by_cases hh : x1.roomID = tgt
        · rw [if_pos hh] at hp1
          simp only [Room.addPlayer] at hp1
          rcases List.mem_append.mp hp1 with hm | hm
          · exact hm
          · have : p = conn := by simpa using hm
            exact absurd this hpc
        · rw [if_neg hh] at hp1; exact hp1
      have e2p : p ∈ x2.players := by
        rw [← he2] at hp2
        by_cases hh : x2.roomID = tgt
        · rw [if_pos hh] at hp2
          simp only [Room.addPlayer] at hp2
          rcases List.mem_append.mp hp2 with hm | hm
          · exact hm
          · have : p = conn := by simpa using hm
            exact absurd this hpc
        · rw [if_neg hh] at hp2; exact hp2
      rw [e1id, e2id]
      exact h4 p x1 hx1 x2 hx2 e1p e2p

theorem stateInv_startGameAt (s : ServerState) (rid : String)
    (h : StateInv s) : StateInv (startGameAt s rid).1 := by
  unfold startGameAt
  cases hl : lookupRoom s rid with
  | none => simp only [hl]; exact h
  | some r =>
      simp only [hl]
      exact stateInv_updateRoom s rid _ (fun x => startGame_fst_roomID x)
        (fun x q hq => by rw [startGame_fst_players] at hq; exact hq) h

theorem stateInv_roomJoined (s : ServerState) (c rid : String)
    (h : StateInv s) : StateInv (roomJoined s c rid).1 := by
  unfold roomJoined
  cases hp : findPlayer s c with
  | none => simp only [hp]; exact h
  | some q =>
      cases hr : dirFind s (fun r => decide (r.roomID = rid)) with
      | none => simp only [hp, hr]; exact h
      | some room =>
          simp only [hp, hr]
          cases hc : dirFind s (fun r => decide (c ∈ r.players)) with
          | some cur =>
              simp only [hc]
              have hA : StateInv (updateRoom s cur.roomID (fun x => x.removePlayer c)) :=
                stateInv_updateRoom s _ _ (fun x => rfl)
                  (fun x q hq => by
                    simp only [Room.removePlayer] at hq
                    exact (List.mem_filter.mp hq).1) h
              have hnoA := no_conn_after_evict s c h.2.2.2 cur hc
              have hC : StateInv (updatePlayer
                  (leaveChannel (updateRoom s cur.roomID (fun x => x.removePlayer c))
                    cur.roomID c) c resetPlayer) :=
                stateInv_congr _ _ rfl rfl hA
              have hnoC : ∀ r ∈ (updatePlayer
                  (leaveChannel (updateRoom s cur.roomID (fun x => x.removePlayer c))
                    cur.roomID c) c resetPlayer).roomStore, c ∉ r.players := hnoA
              have hD : StateInv (joinChannel (updatePlayer
                  (leaveChannel (updateRoom s cur.roomID (fun x => x.removePlayer c))
                    cur.roomID c) c resetPlayer) room.roomID c) :=
                stateInv_congr _ _ (roomStore_joinChannel _ _ _) (rooms_joinChannel _ _ _) hC
              have hnoD : ∀ r ∈ (joinChannel (updatePlayer
                  (leaveChannel (updateRoom s cur.roomID (fun x => x.removePlayer c))
                    cur.roomID c) c resetPlayer) room.roomID c).roomStore, c ∉ r.players :=
                fun r hrm => hnoC r (roomStore_joinChannel _ _ _ ▸ hrm)
              have hE := stateInv_after_add _ c room.roomID hD hnoD
              exact stateInv_startGameAt _ room.roomID hE
          | none =>
              simp only [hc]
              have hno := no_conn_no_room s c h.1 h.2.2.1 hc
              have hD : StateInv (joinChannel s room.roomID c) :=
                stateInv_congr _ _ (roomStore_joinChannel _ _ _) (rooms_joinChannel _ _ _) h
              have hnoD : ∀ r ∈ (joinChannel s room.roomID c).roomStore, c ∉ r.players :=
                fun r hrm => hno r (roomStore_joinChannel _ _ _ ▸ hrm)
              have hE := stateInv_after_add _ c room.roomID hD hnoD
              exact stateInv_startGameAt _ room.roomID hE

theorem stateInv_keyboardInput (s : ServerState) (c a k : String)
    (h : StateInv s) : StateInv (handleKeyboardInput s c a k).1 := by
  unfold handleKeyboardInput
  cases hd : dirFind s (fun r => decide (a ∈ r.players)) with
  | none => simp only [hd]; exact h
  | some room => simp only [hd]; exact h

theorem stateInv_solveComplete (s : ServerState) (c a : String) (t : Nat)
    (h : StateInv s) : StateInv (handleSolveComplete s c a t).1 := by
  unfold handleSolveComplete
  cases hd : dirFind s (fun r => decide (c ∈ r.players)) with
  | none => simp only [hd]; exact h
  | some room =>
      simp only [hd]
      split
      · exact stateInv_congr s _ rfl rfl h
      · exact h

theorem stateInv_disconnect (s : ServerState) (c : String)
    (h : StateInv s) : StateInv (disconnectPlayer s c).1 := by
  unfold disconnectPlayer
  cases hp : findPlayer s c with
  | none => simp only [hp]; exact h
  | some q =>
      cases hd : dirFind s (fun r => decide (c ∈ r.players)) with
      | none => simp only [hp, hd]; exact h
      | some room => simp only [hp, hd]; exact stateInv_congr s _ rfl rfl h

theorem stateInv_handle (s : ServerState) (c : String) (e : Event)
    (h : StateInv s) (hf : freshOK s e = true) : StateInv (handle s c e).1 := by
  cases e with
  | init u => exact stateInv_initializePlayer s c u h
  | joinRandom f => exact stateInv_joinRandomRoom s c f h (of_decide_eq_true hf)
  | joinRematch f => exact stateInv_joinRematchRoom s c f h (of_decide_eq_true hf)
  | joined rid => exact stateInv_roomJoined s c rid h
  | keyInput a k => exact stateInv_keyboardInput s c a k h
  | completedSolve a t => exact stateInv_solveComplete s c a t h
  | disconnect => exact stateInv_disconnect s c h

theorem reach_stateInv (s : ServerState) (h : Reach s) : StateInv s := by
  induction h with
  | init => exact stateInv_init
  | step s c e hs hf ih => exact stateInv_handle s c e ih hf

/-! ### More frame lemmas -/

theorem players_startGameAt (s : ServerState) (rid : String) :
    (startGameAt s rid).1.players = s.players := by
  unfold startGameAt
  cases hl : lookupRoom s rid with
  | none => rfl
  | some r => rfl

theorem channels_startGameAt (s : ServerState) (rid : String) :
    (startGameAt s rid).1.channels = s.channels := by
  unfold startGameAt
  cases hl : lookupRoom s rid with
  | none => rfl
  | some r => rfl

theorem channels_joinChannel (s : ServerState) (ch conn : String) :
    (joinChannel s ch conn).channels =
      if (ch, conn) ∈ s.channels then s.channels else s.channels ++ [(ch, conn)] := by
  by_cases h : (ch, conn) ∈ s.channels
  · simp [joinChannel, h]
  · simp [joinChannel, h]

theorem lookupRoom_startGameAt (s : ServerState) (rid : String) (r : Room)
    (h : lookupRoom s rid = some r) :
    lookupRoom (startGameAt s rid).1 rid = some ((r.startGame).1) ∧
      (startGameAt s rid).2 = (r.startGame).2 := by
  unfold startGameAt
  simp only [h]
  exact ⟨lookupRoom_updateRoom_self s rid _ r (fun x => startGame_fst_roomID x) h, trivial⟩

theorem only_target_startGameAt (E : ServerState) (conn tgt rid : String)
    (h : ∀ r ∈ E.roomStore, conn ∈ r.players → r.roomID = rid) :
    ∀ r ∈ (startGameAt E tgt).1.roomStore, conn ∈ r.players → r.roomID = rid := by
  unfold startGameAt
  cases hl : lookupRoom E tgt with
  | none => simp only [hl]; exact h
  | some r0 =>
      simp only [hl]
      intro r hrm hmem
      have hr' : r ∈ E.roomStore.map
          (fun x => if x.roomID = tgt then (x.startGame).1 else x) := hrm
      obtain ⟨x, hx, hex⟩ := List.mem_map.mp hr'
      by_cases hid : x.roomID = tgt
      · rw [if_pos hid] at hex
        have hpx : conn ∈ x.players := by
          rw [← hex] at hmem
          rw [startGame_fst_players] at hmem
          exact hmem
        rw [← hex, startGame_fst_roomID]
        exact h x hx hpx
      · rw [if_neg hid] at hex
        rw [← hex] at hmem ⊢
        exact h x hx hmem

theorem findSome?_singleton {α β : Type} (g : α → Option β) (x : α) :
    [x].findSome? g = g x := by
  cases hg : g x with
  | some b => simp [List.findSome?_cons, hg]
  | none => simp [List.findSome?_cons, hg]

theorem dirFind_push (s : ServerState) (x : String) (p : Room → Bool) :
    dirFind { s with rooms := s.rooms ++ [x] } p = (dirFind s p).or (dirProbe s p x) := by
  unfold dirFind
  have hg : dirProbe { s with rooms := s.rooms ++ [x] } p = dirProbe s p := rfl
  rw [hg]
  show (s.rooms ++ [x]).findSome? (dirProbe s p) = _
  rw [List.findSome?_append, findSome?_singleton]

/-! ### The effect of a confirmed join -/

theorem joined_tail_spec (C : ServerState) (conn tgt : String) (room1 : Room)
    (hlookC : lookupRoom C tgt = some room1)
    (hnoC : ∀ r ∈ C.roomStore, conn ∉ r.players) :
    findPlayer (startGameAt (updateRoom (joinChannel C tgt conn) tgt
        (fun x => x.addPlayer conn)) tgt).1 conn = findPlayer C conn ∧
    (∀ r ∈ (startGameAt (updateRoom (joinChannel C tgt conn) tgt
        (fun x => x.addPlayer conn)) tgt).1.roomStore,
        conn ∈ r.players → r.roomID = tgt) ∧
    lookupRoom (startGameAt (updateRoom (joinChannel C tgt conn) tgt
        (fun x => x.addPlayer conn)) tgt).1 tgt =
      some (((room1.addPlayer conn).startGame).1) ∧
    (startGameAt (updateRoom (joinChannel C tgt conn) tgt
        (fun x => x.addPlayer conn)) tgt).2 = ((room1.addPlayer conn).startGame).2 ∧
    (startGameAt (updateRoom (joinChannel C tgt conn) tgt
        (fun x => x.addPlayer conn)) tgt).1.channels =
      (if (tgt, conn) ∈ C.channels then C.channels else C.channels ++ [(tgt, conn)]) := by
  have hstD : (joinChannel C tgt conn).roomStore = C.roomStore :=
    roomStore_joinChannel C tgt conn
  have hlookD : lookupRoom (joinChannel C tgt conn) tgt = some room1 :=
    (lookupRoom_congr C _ tgt hstD).trans hlookC
  have hlookE : lookupRoom (updateRoom (joinChannel C tgt conn) tgt
      (fun x => x.addPlayer conn)) tgt = some (room1.addPlayer conn) :=
    lookupRoom_updateRoom_self _ tgt _ room1 (fun x => rfl) hlookD
  have hres := lookupRoom_startGameAt _ tgt _ hlookE
  have hnoD : ∀ r ∈ (joinChannel C tgt conn).roomStore, conn ∉ r.players :=
    fun r hrm => hnoC r (hstD ▸ hrm)
  have hotE := only_target_after_add (joinChannel C tgt conn) conn tgt hnoD
  refine ⟨?_, only_target_startGameAt _ conn tgt tgt hotE, hres.1, hres.2, ?_⟩
  · rw [findPlayer_congr _ _ conn (players_startGameAt _ tgt)]
    exact findPlayer_congr C _ conn (players_joinChannel C tgt conn)
  · rw [channels_startGameAt]
    exact channels_joinChannel C tgt conn

theorem roomJoined_effects (s : ServerState) (conn rid : String) (pst : Player)
    (room cur : Room) (hInv : StateInv s)
    (hp : findPlayer s conn = some pst)
    (hr : dirFind s (fun r => decide (r.roomID = rid)) = some room)
    (hc : dirFind s (fun r => decide (conn ∈ r.players)) = some cur) :
    findPlayer (roomJoined s conn rid).1 conn = some (resetPlayer pst) ∧
    (∀ r ∈ (roomJoined s conn rid).1.roomStore, conn ∈ r.players → r.roomID = rid) ∧
    lookupRoom (roomJoined s conn rid).1 rid =
      some ((((if cur.roomID = rid then room.removePlayer conn else room).addPlayer
        conn).startGame).1) ∧
    (roomJoined s conn rid).2 =
      (((if cur.roomID = rid then room.removePlayer conn else room).addPlayer
        conn).startGame).2 ∧
    (roomJoined s conn rid).1.channels =
      (if (rid, conn) ∈ s.channels.filter (fun c0 => decide (c0 ≠ (cur.roomID, conn)))
       then s.channels.filter (fun c0 => decide (c0 ≠ (cur.roomID, conn)))
       else s.channels.filter (fun c0 => decide (c0 ≠ (cur.roomID, conn)))
         ++ [(rid, conn)]) := by
  obtain ⟨hnd, hres, hsl, hamo⟩ := hInv
  obtain ⟨hrs, hrp⟩ := dirFind_some_spec s _ room hr
  have hridr : room.roomID = rid := of_decide_eq_true hrp
  subst hridr
  obtain ⟨hcs, hcp⟩ := dirFind_some_spec s _ cur hc
  have hlook : lookupRoom s room.roomID = some room := lookupRoom_self s hnd room hrs
  have hlookA : lookupRoom (updateRoom s cur.roomID (fun x => x.removePlayer conn))
      room.roomID =
      some (if cur.roomID = room.roomID then room.removePlayer conn else room) := by
    by_cases hcc : cur.roomID = room.roomID
    · rw [if_pos hcc]
      have hcurroom : cur = room := by
        have h1 : lookupRoom s room.roomID = some cur := by
          rw [← hcc]; exact lookupRoom_self s hnd cur hcs
        rw [hlook] at h1
        exact (Option.some.inj h1).symm
      rw [hcurroom]
      exact lookupRoom_updateRoom_self s room.roomID (fun x => x.removePlayer conn)
        room (fun x => rfl) hlook
    · rw [if_neg hcc]
      exact (lookupRoom_updateRoom_other s cur.roomID room.roomID
        (fun x => x.removePlayer conn) (fun x => rfl)
        (fun he => hcc he.symm)).trans hlook
  have hnoA := no_conn_after_evict s conn hamo cur hc
  have hlookC : lookupRoom (updatePlayer (leaveChannel
      (updateRoom s cur.roomID (fun x => x.removePlayer conn)) cur.roomID conn)
      conn resetPlayer) room.roomID =
      some (if cur.roomID = room.roomID then room.removePlayer conn else room) := hlookA
  have hnoC : ∀ r ∈ (updatePlayer (leaveChannel
      (updateRoom s cur.roomID (fun x => x.removePlayer conn)) cur.roomID conn)
      conn resetPlayer).roomStore, conn ∉ r.players := hnoA
  have htail := joined_tail_spec _ conn room.roomID _ hlookC hnoC
  have hpC : findPlayer (updatePlayer (leaveChannel
      (updateRoom s cur.roomID (fun x => x.removePlayer conn)) cur.roomID conn)
      conn resetPlayer) conn = some (resetPlayer pst) := by
    refine findPlayer_updatePlayer_self _ conn resetPlayer pst (fun x => rfl) ?_
    exact hp
  unfold roomJoined
  simp only [hp, hr, hc]
  exact ⟨htail.1.trans hpC, htail.2.1, htail.2.2.1, htail.2.2.2.1, htail.2.2.2.2⟩
/-! ### Matchmaking support lemmas -/

theorem lookupRoom_of_mem_ids (s : ServerState) (rid : String) (h : rid ∈ roomIDs s) :
    ∃ r0, lookupRoom s rid = some r0 := by
  obtain ⟨r0, hr0, he⟩ := List.mem_map.mp h
  have hsome : (s.roomStore.find? (fun r => decide (r.roomID = rid))).isSome := by
    rw [List.find?_isSome]
    exact ⟨r0, hr0, by rw [he]; simp⟩
  exact Option.isSome_iff_exists.mp hsome

theorem lookupRoom_create (s : ServerState) (nr : Room) (rid : String) :
    lookupRoom { s with roomStore := s.roomStore ++ [nr], rooms := s.rooms ++ [nr.roomID] } rid =
      (lookupRoom s rid).or ([nr].find? (fun r => decide (r.roomID = rid))) := by
  unfold lookupRoom
  exact List.find?_append

theorem players_ensureJoinableRoom (s : ServerState) (f : String) :
    (ensureJoinableRoom s f).2.players = s.players := by
  unfold ensureJoinableRoom
  cases hd : dirFind s Room.joinable with
  | some r => simp only [hd]
  | none => simp only [hd]

theorem occupantsOf_ensure (s : ServerState) (f rid : String) :
    occupantsOf (ensureJoinableRoom s f).2 rid = occupantsOf s rid := by
  unfold ensureJoinableRoom
  cases hd : dirFind s Room.joinable with
  | some r =>
      simp only [hd]
      unfold occupantsOf
      rw [lookupRoom_congr s { s with rooms := s.rooms ++ [r.roomID] } rid rfl]
  | none =>
      simp only [hd]
      unfold occupantsOf
      rw [lookupRoom_create s (newRoom f) rid]
      cases hl : lookupRoom s rid with
      | some r0 => rfl
      | none =>
          by_cases hfr : (newRoom f).roomID = rid
          · have hfr2 : f = rid := by simpa [newRoom] using hfr
            simp [List.find?_cons, hfr2, newRoom]
          · have hfr2 : ¬ f = rid := fun he => hfr (by simpa [newRoom] using he)
            simp [List.find?_cons, hfr2, newRoom]

theorem joinable_newRoom (f : String) : Room.joinable (newRoom f) = true := rfl

theorem ensure_twice_same (s : ServerState) (f1 f2 : String)
    (hres : dirResolves s) (hf : f1 ∉ roomIDs s) :
    (ensureJoinableRoom (ensureJoinableRoom s f1).2 f2).1 =
      (ensureJoinableRoom s f1).1 ∧
    (ensureJoinableRoom (ensureJoinableRoom s f1).2 f2).2.roomStore =
      (ensureJoinableRoom s f1).2.roomStore := by
  unfold ensureJoinableRoom
  cases hd : dirFind s Room.joinable with
  | some r =>
      simp only [hd]
      have hd1 : dirFind { s with rooms := s.rooms ++ [r.roomID] } Room.joinable =
          some r := by
        rw [dirFind_push s r.roomID Room.joinable, hd]
        rfl
      simp only [hd1]
      exact ⟨trivial, trivial⟩
  | none =>
      simp only [hd]
      have hmain : dirFind { s with roomStore := s.roomStore ++ [newRoom f1], rooms := s.rooms ++ [(newRoom f1).roomID] } Room.joinable = some (newRoom f1) := by
        unfold dirFind
        show (s.rooms ++ [(newRoom f1).roomID]).findSome? _ = _
        rw [List.findSome?_append, findSome?_singleton]
        have hold : s.rooms.findSome? (dirProbe { s with roomStore := s.roomStore ++ [newRoom f1], rooms := s.rooms ++ [(newRoom f1).roomID] } Room.joinable) = none := by
          rw [List.findSome?_eq_none_iff]
          intro rid hrid
          obtain ⟨r0, hr0⟩ := lookupRoom_of_mem_ids s rid (hres rid hrid)
          have hl1 : lookupRoom { s with roomStore := s.roomStore ++ [newRoom f1], rooms := s.rooms ++ [(newRoom f1).roomID] } rid = some r0 := by
            rw [lookupRoom_create s (newRoom f1) rid, hr0]
            rfl
          have hprobe := List.findSome?_eq_none_iff.mp hd rid hrid
          unfold dirProbe at hprobe ⊢
          rw [hl1]
          rw [hr0] at hprobe
          exact hprobe
        rw [hold]
        have hl2 : lookupRoom { s with roomStore := s.roomStore ++ [newRoom f1], rooms := s.rooms ++ [(newRoom f1).roomID] } (newRoom f1).roomID = some (newRoom f1) := by
          rw [lookupRoom_create s (newRoom f1) (newRoom f1).roomID]
          have hnone : lookupRoom s (newRoom f1).roomID = none := by
            unfold lookupRoom
            rw [List.find?_eq_none]
            intro x hx hpx
            have hxid : x.roomID = f1 := by simpa [newRoom] using of_decide_eq_true hpx
            exact hf (hxid ▸ List.mem_map_of_mem _ hx)
          rw [hnone]
          simp [newRoom]
        unfold dirProbe
        rw [hl2]
        simp [joinable_newRoom]
      simp only [hmain]
      exact ⟨trivial, trivial⟩

/-! ### Concrete reachable states used as witnesses -/

def sT1 : ServerState := (handle initState "c1" (Event.init "alice")).1

def sT2 : ServerState := (handle sT1 "c1" (Event.joinRandom "aaaaa")).1

def sT3 : ServerState := (handle sT2 "c1" (Event.joinRandom "bbbbb")).1

def sRoom : ServerState := (handle sT2 "c1" (Event.joined "aaaaa")).1

def playerC1 : Player := ⟨"c1", "alice", RoomState.GAME_NOT_STARTED, 0, false⟩

def roomA : Room := ⟨"aaaaa", ["c1"], RoomState.GAME_NOT_STARTED, 2, []⟩

theorem reach_sT1 : Reach sT1 :=
  Reach.step initState "c1" (Event.init "alice") Reach.init rfl

theorem reach_sT2 : Reach sT2 :=
  Reach.step sT1 "c1" (Event.joinRandom "aaaaa") reach_sT1 (by decide)

theorem reach_sT3 : Reach sT3 :=
  Reach.step sT2 "c1" (Event.joinRandom "bbbbb") reach_sT2 (by decide)

theorem reach_sRoom : Reach sRoom :=
  Reach.step sT2 "c1" (Event.joined "aaaaa") reach_sT2 rfl

theorem sRoom_parts : findPlayer sRoom "c1" = some playerC1 ∧
    dirFind sRoom (fun r => decide (r.roomID = "aaaaa")) = some roomA ∧
    dirFind sRoom (fun r => decide ("c1" ∈ r.players)) = some roomA := by
  refine ⟨by decide, by decide, by decide⟩

/-! ### The claims -/

/-- C1: the claim says the Room Directory never contains two entries with the
same roomID.  The code refutes it: `joinRandomRoom` pushes the chosen room into
`deps['rooms']` unconditionally, so a second `join_random` that *finds* the
room created by the first appends a duplicate entry.  After connection c1
initializes and sends `join_random` twice, the reachable directory is
`["aaaaa", "aaaaa"]`: two entries with the same roomID. -/
theorem C1_duplicate_directory_entry :
    Reach sT3 ∧ sT3.rooms = ["aaaaa", "aaaaa"] ∧ ¬ sT3.rooms.Nodup :=
  ⟨reach_sT3, by decide, by decide⟩

/-- C2: the claim says a disconnected connection's id is absent from the
Player Registry afterwards.  The code refutes the registry half:
`disconnectPlayer` never removes the entry from `deps['players']` — after c1
(an occupant of room "aaaaa") disconnects, c1 is still registered; the room
half of the claim does hold: the occupant's `isDNF` is true and c1 is still in
the room's occupant list. -/
theorem C2_disconnect_leaves_registry :
    Reach (handle sRoom "c1" Event.disconnect).1 ∧
    findPlayer (handle sRoom "c1" Event.disconnect).1 "c1" =
      some ⟨"c1", "alice", RoomState.GAME_NOT_STARTED, 0, true⟩ ∧
    "c1" ∈ occupantsOf (handle sRoom "c1" Event.disconnect).1 "aaaaa" :=
  ⟨Reach.step sRoom "c1" Event.disconnect reach_sRoom rfl, by decide, by decide⟩

/-- C3 (counterexample): re-initializing an already-registered connection does
not emit the invalid-join notification the claim promises — the handler only
logs and returns, emitting nothing at all. -/
theorem C3_counterexample_no_invalid_emitted :
    Reach sT1 ∧ initializePlayer sT1 "c1" "bob" = (sT1, []) ∧
    (initializePlayer sT1 "c1" "bob").2 ≠ [⟨"c1", OutEvent.joinInvalid⟩] :=
  ⟨reach_sT1, by decide, by decide⟩

/-- C3 (amended): for every initialize event whose connection id already has a
Player in the registry, the handler is a no-op on the whole state and nothing
is emitted to the caller (the duplicate is only logged). -/
theorem C3_duplicate_init_silent_noop (s : ServerState) (conn u : String)
    (h : s.players.any (fun p => decide (p.id = conn)) = true) :
    initializePlayer s conn u = (s, []) := by
  unfold initializePlayer
  rw [if_pos h]

theorem C3_duplicate_init_silent_noop_witness :
    initializePlayer sT1 "c1" "bob" = (sT1, []) :=
  C3_duplicate_init_silent_noop sT1 "c1" "bob" (by decide)

/-- C4: in every reachable state each player id is contained in at most one
distinct room's occupant list, and the join-confirmation handler evicts the
player from any prior room — resetting the Player's status, solveTime and
isDNF — before adding them to the target room: afterwards the player's record
is reset, the only room containing the player is the target, and the player is
in the target's occupant list. -/
theorem C4_at_most_one_room :
    (∀ s, Reach s → ∀ p, atMostOneRoom s p) ∧
    (∀ (s : ServerState) (conn rid : String) (pst : Player) (room cur : Room),
      Reach s →
      findPlayer s conn = some pst →
      dirFind s (fun r => decide (r.roomID = rid)) = some room →
      dirFind s (fun r => decide (conn ∈ r.players)) = some cur →
      findPlayer (roomJoined s conn rid).1 conn = some (resetPlayer pst) ∧
      (∀ r ∈ (roomJoined s conn rid).1.roomStore, conn ∈ r.players → r.roomID = rid) ∧
      conn ∈ occupantsOf (roomJoined s conn rid).1 rid) := by
  constructor
  · intro s hs p
    exact (reach_stateInv s hs).2.2.2 p
  · intro s conn rid pst room cur hs hp hr hc
    have heff := roomJoined_effects s conn rid pst room cur (reach_stateInv s hs) hp hr hc
    refine ⟨heff.1, heff.2.1, ?_⟩
    unfold occupantsOf
    rw [heff.2.2.1]
    show conn ∈ (((if cur.roomID = rid then room.removePlayer conn else room).addPlayer
      conn).startGame).1.players
    rw [startGame_fst_players]
    simp [Room.addPlayer]

theorem C4_at_most_one_room_witness :
    atMostOneRoom sRoom "c1" ∧
    findPlayer (roomJoined sRoom "c1" "aaaaa").1 "c1" = some (resetPlayer playerC1) ∧
    "c1" ∈ occupantsOf (roomJoined sRoom "c1" "aaaaa").1 "aaaaa" := by
  have h2 := C4_at_most_one_room.2 sRoom "c1" "aaaaa" playerC1 roomA roomA reach_sRoom
    sRoom_parts.1 sRoom_parts.2.1 sRoom_parts.2.2
  exact ⟨C4_at_most_one_room.1 sRoom reach_sRoom "c1", h2.1, h2.2.2⟩

/-- C5: `handleSolveComplete` looks the room up by the delivering socket's own
membership; a claimed id different from the delivering connection's id leaves
the state unchanged and emits nothing, and `playerSolveComplete` runs only
when the claimed id equals the delivering connection's own id (on the room
found by the delivering connection's membership). -/
theorem C5_solve_complete_origin_guard (s : ServerState) (conn claimed : String) (t : Nat) :
    (claimed ≠ conn → handleSolveComplete s conn claimed t = (s, [])) ∧
    (dirFind s (fun r => decide (conn ∈ r.players)) = none →
      handleSolveComplete s conn claimed t = (s, [])) ∧
    (∀ room, dirFind s (fun r => decide (conn ∈ r.players)) = some room →
      claimed = conn →
      handleSolveComplete s conn claimed t = playerSolveComplete s room conn t) := by
  refine ⟨?_, ?_, ?_⟩
  · intro hne
    unfold handleSolveComplete
    cases hd : dirFind s (fun r => decide (conn ∈ r.players)) with
    | none => simp only [hd]
    | some room =>
        simp only [hd]
        rw [if_neg (fun he => hne he.symm)]
  · intro h
    unfold handleSolveComplete
    simp only [h]
  · intro room h he
    subst he
    unfold handleSolveComplete
    simp only [h, if_pos]

theorem C5_solve_complete_origin_guard_witness :
    handleSolveComplete sRoom "c1" "attacker" 42 = (sRoom, []) ∧
    handleSolveComplete sRoom "c1" "c1" 42 = playerSolveComplete sRoom roomA "c1" 42 := by
  constructor
  · exact (C5_solve_complete_origin_guard sRoom "c1" "attacker" 42).1 (by decide)
  · exact (C5_solve_complete_origin_guard sRoom "c1" "c1" 42).2.2 roomA
      sRoom_parts.2.2 rfl

/-- C6: calling the find-joinable-else-create-then-push step twice with no
intervening joins returns the same Room both times — the second call finds the
room found or created (and pushed) by the first, and creates no second room
(the room store is unchanged by the second call).  The hypotheses are the
directory well-formedness maintained by the process and the `genRanHex` retry
loop's guarantee that the first candidate id collides with no existing room. -/
theorem C6_ensure_joinable_idempotent (s : ServerState) (f1 f2 : String)
    (hres : dirResolves s) (hf : f1 ∉ roomIDs s) :
    (ensureJoinableRoom (ensureJoinableRoom s f1).2 f2).1 =
      (ensureJoinableRoom s f1).1 ∧
    (ensureJoinableRoom (ensureJoinableRoom s f1).2 f2).2.roomStore =
      (ensureJoinableRoom s f1).2.roomStore :=
  ensure_twice_same s f1 f2 hres hf

theorem C6_ensure_joinable_idempotent_witness :
    (ensureJoinableRoom (ensureJoinableRoom initState "aaaaa").2 "bbbbb").1 =
      (ensureJoinableRoom initState "aaaaa").1 ∧
    (ensureJoinableRoom (ensureJoinableRoom initState "aaaaa").2 "bbbbb").2.roomStore =
      (ensureJoinableRoom initState "aaaaa").2.roomStore :=
  C6_ensure_joinable_idempotent initState "aaaaa" "bbbbb"
    (fun rid hrid => absurd hrid (List.not_mem_nil rid))
    (List.not_mem_nil "aaaaa")

/-- C7: `joinRematchRoom` emits invalid-join to the caller when the Player or
the containing Room is missing; when `processRematchRequest` returns false it
creates no room and emits nothing (only the room's rematch set changes); when
it returns true, the new room is resolved or created by the same
`ensureJoinableRoom` policy and its id is emitted on the *old* room's
broadcast channel. -/
theorem C7_join_rematch_flow (s : ServerState) (conn f : String) :
    (findPlayer s conn = none →
      joinRematchRoom s conn f = (s, [⟨conn, OutEvent.joinInvalid⟩])) ∧
    (∀ pst : Player, findPlayer s conn = some pst →
      dirFind s (fun r => decide (conn ∈ r.players)) = none →
      joinRematchRoom s conn f = (s, [⟨conn, OutEvent.joinInvalid⟩])) ∧
    (∀ (pst : Player) (room : Room), findPlayer s conn = some pst →
      dirFind s (fun r => decide (conn ∈ r.players)) = some room →
      (room.processRematchRequest conn).2 = false →
      (joinRematchRoom s conn f).2 = [] ∧
      (joinRematchRoom s conn f).1.rooms = s.rooms ∧
      roomIDs (joinRematchRoom s conn f).1 = roomIDs s) ∧
    (∀ (pst : Player) (room : Room), findPlayer s conn = some pst →
      dirFind s (fun r => decide (conn ∈ r.players)) = some room →
      (room.processRematchRequest conn).2 = true →
      joinRematchRoom s conn f =
        ((ensureJoinableRoom (updateRoom s room.roomID
            (fun r => (r.processRematchRequest conn).1)) f).2,
         [⟨room.roomID, OutEvent.roomFound (ensureJoinableRoom (updateRoom s room.roomID
            (fun r => (r.processRematchRequest conn).1)) f).1.roomID⟩])) := by
  refine ⟨?_, ?_, ?_, ?_⟩
  · intro h
    unfold joinRematchRoom
    simp only [h]
  · intro pst h hd
    unfold joinRematchRoom
    simp only [h, hd]
  · intro pst room h hd hacc
    unfold joinRematchRoom
    simp only [h, hd]
    rw [if_neg (by rw [hacc]; exact Bool.false_ne_true)]
    exact ⟨rfl, rfl, roomIDs_updateRoom s room.roomID
      (fun r => (r.processRematchRequest conn).1) (fun x => rfl)⟩
  · intro pst room h hd hacc
    unfold joinRematchRoom
    simp only [h, hd]
    rw [if_pos hacc]

theorem C7_join_rematch_flow_witness :
    joinRematchRoom sRoom "c1" "ccccc" =
      ((ensureJoinableRoom (updateRoom sRoom roomA.roomID
          (fun r => (r.processRematchRequest "c1").1)) "ccccc").2,
       [⟨roomA.roomID, OutEvent.roomFound (ensureJoinableRoom (updateRoom sRoom
          roomA.roomID (fun r => (r.processRematchRequest "c1").1)) "ccccc").1.roomID⟩]) :=
  (C7_join_rematch_flow sRoom "c1" "ccccc").2.2.2 playerC1 roomA
    sRoom_parts.1 sRoom_parts.2.2 (by decide)

/-- C8: `joinRandomRoom` for a registered player emits exactly one event — the
chosen room's id, on the calling connection's own channel — and leaves the
registry and every room's occupant list unchanged: discovery, not
membership. -/
theorem C8_join_random_frame (s : ServerState) (conn f : String) (pst : Player)
    (h : findPlayer s conn = some pst) :
    (joinRandomRoom s conn f).2 =
      [⟨conn, OutEvent.roomFound (ensureJoinableRoom s f).1.roomID⟩] ∧
    (joinRandomRoom s conn f).1.players = s.players ∧
    (∀ rid, occupantsOf (joinRandomRoom s conn f).1 rid = occupantsOf s rid) := by
  unfold joinRandomRoom
  simp only [h]
  exact ⟨trivial, players_ensureJoinableRoom s f, fun rid => occupantsOf_ensure s f rid⟩

theorem C8_join_random_frame_witness :
    (joinRandomRoom sT1 "c1" "ccccc").2 =
      [⟨"c1", OutEvent.roomFound (ensureJoinableRoom sT1 "ccccc").1.roomID⟩] ∧
    (joinRandomRoom sT1 "c1" "ccccc").1.players = sT1.players ∧
    occupantsOf (joinRandomRoom sT1 "c1" "ccccc").1 "ccccc" =
      occupantsOf sT1 "ccccc" := by
  have h := C8_join_random_frame sT1 "c1" "ccccc" playerC1 (by decide)
  exact ⟨h.1, h.2.1, h.2.2 "ccccc"⟩

/-- C9 (counterexample): an OriginMismatch on `completed_solve` is dropped
silently — no rejection notification is emitted to the offending connection,
refuting the claim that every such condition emits one. -/
theorem C9_counterexample_silent_origin_mismatch :
    Reach sRoom ∧
    handleSolveComplete sRoom "c1" "c2" 7 = (sRoom, []) ∧
    (handleSolveComplete sRoom "c1" "c2" 7).2 ≠ [⟨"c1", OutEvent.joinInvalid⟩] :=
  ⟨reach_sRoom, by decide, by decide⟩

/-- C9 (amended): every PlayerNotFound, RoomNotFound, DuplicateInitialize and
OriginMismatch condition aborts the event with no other state change; the
generic rejection is emitted to the offending connection for PlayerNotFound
and RoomNotFound in join_random, join_rematch, joined, input and disconnect,
while DuplicateInitialize and the RoomNotFound / OriginMismatch conditions of
completed_solve abort silently with no emission at all. -/
theorem C9_error_conditions_abort (s : ServerState)
    (conn u f rid a k claimed : String) (t : Nat) :
    (s.players.any (fun p => decide (p.id = conn)) = true →
      initializePlayer s conn u = (s, [])) ∧
    (findPlayer s conn = none →
      joinRandomRoom s conn f = (s, [⟨conn, OutEvent.joinInvalid⟩])) ∧
    (findPlayer s conn = none →
      joinRematchRoom s conn f = (s, [⟨conn, OutEvent.joinInvalid⟩])) ∧
    (∀ pst : Player, findPlayer s conn = some pst →
      dirFind s (fun r => decide (conn ∈ r.players)) = none →
      joinRematchRoom s conn f = (s, [⟨conn, OutEvent.joinInvalid⟩])) ∧
    (findPlayer s conn = none →
      roomJoined s conn rid = (s, [⟨conn, OutEvent.joinInvalid⟩])) ∧
    (∀ pst : Player, findPlayer s conn = some pst →
      dirFind s (fun r => decide (r.roomID = rid)) = none →
      roomJoined s conn rid = (s, [⟨conn, OutEvent.joinInvalid⟩])) ∧
    (dirFind s (fun r => decide (a ∈ r.players)) = none →
      handleKeyboardInput s conn a k = (s, [⟨conn, OutEvent.joinInvalid⟩])) ∧
    (dirFind s (fun r => decide (conn ∈ r.players)) = none →
      handleSolveComplete s conn claimed t = (s, [])) ∧
    (∀ room : Room, dirFind s (fun r => decide (conn ∈ r.players)) = some room →
      claimed ≠ conn → handleSolveComplete s conn claimed t = (s, [])) ∧
    (findPlayer s conn = none →
      disconnectPlayer s conn = (s, [⟨conn, OutEvent.joinInvalid⟩])) := by
  refine ⟨?_, ?_, ?_, ?_, ?_, ?_, ?_, ?_, ?_, ?_⟩
  · intro h
    unfold initializePlayer
    rw [if_pos h]
  · intro h
    unfold joinRandomRoom
    simp only [h]
  · intro h
    unfold joinRematchRoom
    simp only [h]
  · intro pst h hd
    unfold joinRematchRoom
    simp only [h, hd]
  · intro h
    unfold roomJoined
    simp only [h]
  · intro pst h hd
    unfold roomJoined
    simp only [h, hd]
  · intro h
    unfold handleKeyboardInput
    simp only [h]
  · intro h
    unfold handleSolveComplete
    simp only [h]
  · intro room h hne
    unfold handleSolveComplete
    simp only [h]
    rw [if_neg (fun he => hne he.symm)]
  · intro h
    unfold disconnectPlayer
    simp only [h]

theorem C9_error_conditions_abort_witness :
    joinRandomRoom sT1 "ghost" "ddddd" = (sT1, [⟨"ghost", OutEvent.joinInvalid⟩]) ∧
    disconnectPlayer sT1 "ghost" = (sT1, [⟨"ghost", OutEvent.joinInvalid⟩]) ∧
    initializePlayer sT1 "c1" "zed" = (sT1, []) ∧
    handleSolveComplete sRoom "c1" "other" 3 = (sRoom, []) := by
  refine ⟨?_, ?_, ?_, ?_⟩
  · exact (C9_error_conditions_abort sT1 "ghost" "" "ddddd" "" "" "" "" 0).2.1 (by decide)
  · exact (C9_error_conditions_abort sT1 "ghost" "" "" "" "" "" "" 0).2.2.2.2.2.2.2.2.2
      (by decide)
  · exact (C9_error_conditions_abort sT1 "c1" "zed" "" "" "" "" "" 0).1 (by decide)
  · exact (C9_error_conditions_abort sRoom "c1" "" "" "" "" "" "other" 3).2.2.2.2.2.2.2.2.1
      roomA sRoom_parts.2.2 (by decide)

/-- C10: a confirmed join whose target room is the room the player already
occupies still evicts the player (the occupant list ends as the old list
without the player, with the player re-appended), still leaves and re-joins
the room's broadcast channel, resets the Player's status, solveTime and isDNF
to their initial values, and re-runs startGame on the re-joined room. -/
theorem C10_rejoin_same_room (s : ServerState) (conn rid : String) (pst : Player)
    (room : Room) (hs : Reach s)
    (hp : findPlayer s conn = some pst)
    (hr : dirFind s (fun r => decide (r.roomID = rid)) = some room)
    (hc : dirFind s (fun r => decide (conn ∈ r.players)) = some room) :
    findPlayer (roomJoined s conn rid).1 conn = some (resetPlayer pst) ∧
    occupantsOf (roomJoined s conn rid).1 rid =
      room.players.filter (fun q => decide (q ≠ conn)) ++ [conn] ∧
    (roomJoined s conn rid).1.channels =
      s.channels.filter (fun c0 => decide (c0 ≠ (rid, conn))) ++ [(rid, conn)] ∧
    lookupRoom (roomJoined s conn rid).1 rid =
      some ((((room.removePlayer conn).addPlayer conn).startGame).1) ∧
    (roomJoined s conn rid).2 =
      (((room.removePlayer conn).addPlayer conn).startGame).2 := by
  have hInv := reach_stateInv s hs
  have heff := roomJoined_effects s conn rid pst room room hInv hp hr hc
  have hridr : room.roomID = rid := of_decide_eq_true (dirFind_some_spec s _ room hr).2
  rw [if_pos hridr, hridr] at heff
  have hnotin : (rid, conn) ∉ s.channels.filter
      (fun c0 => decide (c0 ≠ (rid, conn))) := by
    intro hmem
    have hq := (List.mem_filter.mp hmem).2
    simp at hq
  refine ⟨heff.1, ?_, ?_, heff.2.2.1, heff.2.2.2.1⟩
  · unfold occupantsOf
    rw [heff.2.2.1]
    show (((room.removePlayer conn).addPlayer conn).startGame).1.players = _
    rw [startGame_fst_players]
    rfl
  · rw [heff.2.2.2.2, if_neg hnotin]

theorem C10_rejoin_same_room_witness :
    findPlayer (roomJoined sRoom "c1" "aaaaa").1 "c1" = some (resetPlayer playerC1) ∧
    occupantsOf (roomJoined sRoom "c1" "aaaaa").1 "aaaaa" =
      roomA.players.filter (fun q => decide (q ≠ "c1")) ++ ["c1"] ∧
    (roomJoined sRoom "c1" "aaaaa").1.channels =
      sRoom.channels.filter (fun c0 => decide (c0 ≠ ("aaaaa", "c1"))) ++
        [("aaaaa", "c1")] := by
  have h := C10_rejoin_same_room sRoom "c1" "aaaaa" playerC1 roomA reach_sRoom
    sRoom_parts.1 sRoom_parts.2.1 sRoom_parts.2.2
  exact ⟨h.1, h.2.1, h.2.2.1⟩
